import Mathlib

/-!
# Verification of the PatchCore-style anomaly detection core

Shallow embedding of the feature-and-memory anomaly scoring engine of the
`Image-Anomaly-Detection` repository (`src/code_scratch.ipynb`), together with
proofs settling the frozen claims about it.

Embedding conventions:
* Activation values and patch features are rational numbers (`ℚ`); the exact
  Euclidean distance is `Real.sqrt` of a rational sum of squares, so distances
  and everything downstream of `torch.cdist` live in `ℝ`.
* Tensors are modelled positionally: an activation map is a structure holding
  channel/height/width counts and a data function; a patch-feature grid is a
  `List (List ℚ)` of row-major patch vectors.
* Fallible operations (`torch.min` over an empty reduction dimension,
  `Tensor.view` with a mismatched element count, `roc_auc_score` on a
  single-class label vector) are modelled with `Except`/`Option`.
* The random subsample drawn by `np.random.choice(n, size=n//10,
  replace=False)` is modelled by passing the drawn index list explicitly; the
  constraints `np.random.choice` guarantees (length `n/10`, all indices in
  range) appear as hypotheses.
-/

/-- An activation map as captured by a forward hook: shape
`(C, H, W)` plus the stored values (`data c i j` is the entry at channel `c`,
row `i`, column `j`).  Mirrors one element of `self.features` in
`resnet_feature_extractor`. -/
structure ActMap where
  C : ℕ
  H : ℕ
  W : ℕ
  data : ℕ → ℕ → ℕ → ℚ

/-- `torch.nn.AvgPool2d(3, stride=1)` (padding 0): each output entry is the
mean of a 3×3 window, so each spatial dimension shrinks by 2. -/
def avgPool3 (m : ActMap) : ActMap :=
  { C := m.C
    H := m.H - 2
    W := m.W - 2
    data := fun c i j =>
      (((List.range 3).map (fun di =>
        (((List.range 3).map (fun dj => m.data c (i + di) (j + dj))).sum))).sum) / 9 }

/-- `torch.nn.AdaptiveAvgPool2d(s)`: output is `s × s`; output cell `(i, j)`
averages input rows `[⌊i·H/s⌋, ⌈(i+1)·H/s⌉)` and columns
`[⌊j·W/s⌋, ⌈(j+1)·W/s⌉)` (PyTorch's adaptive binning). -/
def adaptiveAvgPool (s : ℕ) (m : ActMap) : ActMap :=
  { C := m.C
    H := s
    W := s
    data := fun c i j =>
      let r0 := i * m.H / s
      let r1 := ((i + 1) * m.H + s - 1) / s
      let c0 := j * m.W / s
      let c1 := ((j + 1) * m.W + s - 1) / s
      (((List.range (r1 - r0)).map (fun a =>
        (((List.range (c1 - c0)).map (fun b => m.data c (r0 + a) (c0 + b))).sum))).sum)
        / (((r1 - r0) * (c1 - c0) : ℕ) : ℚ) }

/-- `torch.cat([a, b], 1)`: concatenation along the channel axis. -/
def catC (a b : ActMap) : ActMap :=
  { C := a.C + b.C
    H := a.H
    W := a.W
    data := fun c i j => if c < a.C then a.data c i j else b.data (c - a.C) i j }

/-- `resnet_feature_extractor.forward`: smooth both captured maps with
`AvgPool2d(3, stride=1)`, resample both with
`AdaptiveAvgPool2d(fmap_size)` where `fmap_size = features[0].shape[-2]` is the
raw height of the FIRST captured (earlier-stage) map, concatenate along
channels, and flatten `patch.reshape(patch.shape[1], -1).T` to a row-major list
of `fmap_size²` patch vectors (vector `p` has component `c` equal to channel
`c` at spatial position `(p / fmap_size, p % fmap_size)`). -/
def extract (f1 f2 : ActMap) : List (List ℚ) :=
  let s := f1.H
  let r1 := adaptiveAvgPool s (avgPool3 f1)
  let r2 := adaptiveAvgPool s (avgPool3 f2)
  let m := catC r1 r2
  (List.range (s * s)).map (fun p =>
    (List.range m.C).map (fun c => m.data c (p / s) (p % s)))

/-- Squared Euclidean distance between two feature vectors (componentwise over
the common length, as `torch.cdist` requires equal feature dimensions). -/
def sqDist (v w : List ℚ) : ℚ :=
  ((v.zip w).map (fun x => (x.1 - x.2) ^ 2)).sum

/-- Euclidean (L2) distance, `torch.cdist(·, ·, p=2.0)` on one pair of rows. -/
noncomputable def l2 (v w : List ℚ) : ℝ :=
  Real.sqrt ((sqDist v w : ℚ) : ℝ)

/-- Minimum of a list of reals (`torch.min(·, dim=1)` values over a non-empty
reduction dimension); `0` for the empty list, which the scorer never uses
because the empty-bank case errors out first. -/
noncomputable def listMinR : List ℝ → ℝ
  | [] => 0
  | x :: xs => xs.foldl min x

/-- Maximum of a list of reals (`torch.max` over all entries). -/
noncomputable def listMaxR : List ℝ → ℝ
  | [] => 0
  | x :: xs => xs.foldl max x

/-- Row `i` of `torch.cdist(features, memory_bank, p=2.0)` reduced by
`torch.min(·, dim=1)`: the list of per-patch nearest-bank distances
(`dist_score`), in the same row-major order as the patch grid. -/
noncomputable def nndList (patches bank : List (List ℚ)) : List ℝ :=
  patches.map (fun p => listMinR (bank.map (fun b => l2 p b)))

/-- `dist_score.view(1, 1, 28, 28)`: defined exactly when the sequence has
`28·28` entries, and then maps `(r, c)` to entry `r·28 + c` (row-major). -/
def view28 (l : List ℝ) : Option (ℕ → ℕ → ℝ) :=
  if l.length = 28 * 28 then some (fun r c => l.getD (r * 28 + c) 0) else none

/-- Source coordinate used by `torch.nn.functional.interpolate(...,
mode='bilinear')` with `align_corners=False`: `scale·(dst+0.5) − 0.5`, clamped
below at 0 (PyTorch's `area_pixel_compute_source_index`). -/
def srcIdx (inS outS d : ℕ) : ℚ :=
  max 0 (((d : ℚ) + 1 / 2) * (inS : ℚ) / (outS : ℚ) - 1 / 2)

/-- Bilinear upsampling of an `inS × inS` grid to `outS × outS`, following
PyTorch's `upsample_bilinear2d` with `align_corners=False`: for each output
pixel, interpolate between the two neighbouring input rows/columns of the
(clamped) fractional source coordinate, clamping indices at `inS − 1`. -/
noncomputable def bilinearUp (inS outS : ℕ) (g : ℕ → ℕ → ℝ) : ℕ → ℕ → ℝ :=
  fun oy ox =>
    let sy : ℚ := srcIdx inS outS oy
    let sx : ℚ := srcIdx inS outS ox
    let y0 : ℕ := (⌊sy⌋).toNat
    let x0 : ℕ := (⌊sx⌋).toNat
    let y1 : ℕ := min (y0 + 1) (inS - 1)
    let x1 : ℕ := min (x0 + 1) (inS - 1)
    let ly : ℚ := sy - (y0 : ℚ)
    let lx : ℚ := sx - (x0 : ℚ)
    ((1 - ly : ℚ) : ℝ) * (((1 - lx : ℚ) : ℝ) * g y0 x0 + ((lx : ℚ) : ℝ) * g y0 x1) +
      ((ly : ℚ) : ℝ) * (((1 - lx : ℚ) : ℝ) * g y1 x0 + ((lx : ℚ) : ℝ) * g y1 x1)

/-- Failure kinds of the scorer: `torch.min(·, dim=1)` raises when the bank is
empty (reduction over a zero-size dimension), and `Tensor.view(1, 1, 28, 28)`
raises when the element count is not `784`. -/
inductive ScoreError where
  | emptyBank : ScoreError
  | shapeMismatch : ScoreError
deriving DecidableEq

/-- The anomaly scorer (`torch.cdist` → `torch.min(dim=1)` → `torch.max` /
`view(1,1,28,28)` → `F.interpolate(..., size=(224,224), mode='bilinear')`):
returns the image-level score `s_star`, the `28×28` anomaly map `segm_map`,
and the map bilinearly upsampled to the `224×224` input resolution. -/
noncomputable def score (patches bank : List (List ℚ)) :
    Except ScoreError (ℝ × (ℕ → ℕ → ℝ) × (ℕ → ℕ → ℝ)) :=
  if bank.isEmpty then Except.error ScoreError.emptyBank
  else
    match view28 (nndList patches bank) with
    | none => Except.error ScoreError.shapeMismatch
    | some m => Except.ok (listMaxR (nndList patches bank), m, bilinearUp 28 224 m)

/-- Memory-bank subsampling (`selected_indices = np.random.choice(len(mb),
size=len(mb)//10, replace=False); mb = mb[selected_indices]`): the drawn index
list is an explicit argument; the bank keeps exactly the pooled vectors at the
drawn indices. -/
def build (pooled : List (List ℚ)) (sel : List ℕ) : List (List ℚ) :=
  sel.map (fun i => pooled.getD i [])

/-- `np.mean`: arithmetic mean (0 for the empty list, as `0 / 0 = 0` in ℚ). -/
def npMean (l : List ℚ) : ℚ := l.sum / (l.length : ℚ)

/-- `np.std(..., ddof=0)` squared: the population variance. -/
def npVar (l : List ℚ) : ℚ :=
  ((l.map (fun x => (x - npMean l) ^ 2)).sum) / (l.length : ℚ)

/-- `np.std` (default `ddof=0`): the population standard deviation. -/
noncomputable def npStd (l : List ℚ) : ℝ := Real.sqrt ((npVar l : ℚ) : ℝ)

/-- Statistical threshold calibration
(`best_threshold = np.mean(y_score_good) + 3 * np.std(y_score_good)`, with the
sensitivity constant `k` — `3` in the notebook — as a parameter). -/
noncomputable def calibrate_statistical (scores : List ℚ) (k : ℚ) : ℝ :=
  ((npMean scores : ℚ) : ℝ) + ((k : ℚ) : ℝ) * npStd scores

/-- Stable insertion of a (score, label) pair into a score-ascending list:
inserted before the first entry whose score is not smaller, so equal scores
keep their original relative order. -/
def insertByScore (p : ℚ × Bool) : List (ℚ × Bool) → List (ℚ × Bool)
  | [] => [p]
  | q :: rest => if q.1 < p.1 then q :: insertByScore p rest else p :: q :: rest

/-- Stable ascending sort by score, modelling
`np.argsort(y_score, kind="mergesort")` applied to (score, label) pairs. -/
def sortByScore (l : List (ℚ × Bool)) : List (ℚ × Bool) :=
  l.foldr insertByScore []

/-- `np.argmax`: index of the first occurrence of the maximum (0 on `[]`). -/
def argmaxIdx : List ℚ → ℕ
  | [] => 0
  | [_] => 0
  | x :: y :: r =>
    let j := argmaxIdx (y :: r)
    if x < (y :: r).getD j 0 then j + 1 else 0

/-- `sklearn.metrics.f1_score` on boolean truth/prediction vectors:
`2·tp / (2·tp + fp + fn)`, with sklearn's `zero_division` convention of `0`
when no true or predicted positives exist. -/
def f1q (truth preds : List Bool) : ℚ :=
  let pairs := truth.zip preds
  let tp := (pairs.filter (fun x => x.1 && x.2)).length
  let fp := (pairs.filter (fun x => !x.1 && x.2)).length
  let fn := (pairs.filter (fun x => x.1 && !x.2)).length
  if 2 * tp + fp + fn = 0 then 0 else (2 * tp : ℚ) / ((2 * tp + fp + fn : ℕ) : ℚ)

/-- `sklearn.metrics.roc_curve(y_true, y_score)` thresholds: sort pairs by
score (stable ascending, then reversed, as `np.argsort(kind="mergesort")[::-1]`
does); keep the indices where the score changes plus the last index; compute
cumulative true/false positive counts there; with more than two points drop
those where both second differences vanish (`drop_intermediate=True`); finally
prepend a sentinel threshold larger than every score (so that it predicts
nothing positive). -/
def rocThresholds (ys : List ℚ) (ts : List Bool) : List ℚ :=
  let sorted := (sortByScore (ys.zip ts)).reverse
  let s := sorted.map Prod.fst
  let t := sorted.map Prod.snd
  let n := sorted.length
  let idxs := ((List.range (n - 1)).filter
    (fun i => decide (s.getD i 0 ≠ s.getD (i + 1) 0))) ++ [n - 1]
  let tpsAt : ℕ → ℤ := fun i => (((t.take (i + 1)).filter (fun b => b)).length : ℤ)
  let fpsAt : ℕ → ℤ := fun i => (i + 1 : ℤ) - tpsAt i
  let tps := idxs.map tpsAt
  let fps := idxs.map fpsAt
  let thr := idxs.map (fun i => s.getD i 0)
  let m := thr.length
  let keep : ℕ → Bool := fun j =>
    decide (j = 0) || decide (j = m - 1) ||
      decide (fps.getD (j + 1) 0 - 2 * fps.getD j 0 + fps.getD (j - 1) 0 ≠ 0) ||
      decide (tps.getD (j + 1) 0 - 2 * tps.getD j 0 + tps.getD (j - 1) 0 ≠ 0)
  let thrKept := if m ≤ 2 then thr else ((List.range m).filter keep).map (fun j => thr.getD j 0)
  (thrKept.headD 0 + 1) :: thrKept

/-- Failure kind of the metric-optimal calibrator: `roc_auc_score` raises
`ValueError` when `y_true` holds fewer than two classes, before any threshold
is computed. -/
inductive CalibError where
  | insufficientData : CalibError
deriving DecidableEq

/-- The metric-optimal calibration cell: `roc_auc_score` first (raising when
the labels hold a single class), then
`f1_scores = [f1_score(y_true, y_score >= t) for t in thresholds]` and
`best_threshold = thresholds[np.argmax(f1_scores)]`. -/
def calibrate_by_metric (ys : List ℚ) (ts : List Bool) : Except CalibError ℚ :=
  if (∀ b ∈ ts, b = true) ∨ (∀ b ∈ ts, b = false) then
    Except.error CalibError.insufficientData
  else
    let thr := rocThresholds ys ts
    let f1s := thr.map (fun t => f1q ts (ys.map (fun sc => decide (t ≤ sc))))
    Except.ok (thr.getD (argmaxIdx f1s) 0)

/-- Stable insertion of a score into an ascending list of scores. -/
def insertAscQ (x : ℚ) : List ℚ → List ℚ
  | [] => [x]
  | q :: rest => if q < x then q :: insertAscQ x rest else x :: q :: rest

/-- Ascending sort of a score list. -/
def sortAscQ (l : List ℚ) : List ℚ := l.foldr insertAscQ []

/-- Collapse adjacent duplicates of a sorted list. -/
def dedupAdj : List ℚ → List ℚ
  | [] => []
  | [x] => [x]
  | x :: y :: r => if x = y then dedupAdj (y :: r) else x :: dedupAdj (y :: r)

/-- The unique observed scores in ascending order. -/
def uniqueAsc (l : List ℚ) : List ℚ := dedupAdj (sortAscQ l)

/-- The calibration procedure exactly as claim C4 words it (for comparison
with `calibrate_by_metric`): candidates are the observed scores in ascending
unique order, each scored by the F1 of `score ≥ threshold`, returning the
first candidate in that order attaining the maximal F1. -/
def claimCalibrateByMetric (ys : List ℚ) (ts : List Bool) : ℚ :=
  let cand := uniqueAsc ys
  let f1s := cand.map (fun t => f1q ts (ys.map (fun sc => decide (t ≤ sc))))
  cand.getD (argmaxIdx f1s) 0

/-- Conclusion of claim C1 for one image/bank pair: `score` succeeds, the
returned scalar is the maximum over the 784 patches of the per-patch nearest
bank distance, each per-patch value is the minimum Euclidean distance to the
bank, the returned map is the row-major 28×28 reshape of that sequence, and
the returned dense map is its bilinear upsampling to 224×224. -/
def ScoreSpecOK (patches bank : List (List ℚ)) : Prop :=
  ∃ s m u, score patches bank = Except.ok (s, m, u) ∧
    (∀ i, i < 784 →
      (∀ b ∈ bank, (nndList patches bank).getD i 0 ≤ l2 (patches.getD i []) b) ∧
      (∃ b ∈ bank, (nndList patches bank).getD i 0 = l2 (patches.getD i []) b)) ∧
    (∀ i, i < 784 → (nndList patches bank).getD i 0 ≤ s) ∧
    (∃ i, i < 784 ∧ (nndList patches bank).getD i 0 = s) ∧
    (∀ r, r < 28 → ∀ c, c < 28 → m r c = (nndList patches bank).getD (r * 28 + c) 0) ∧
    u = bilinearUp 28 224 m

/-- Conclusion of claim C6: `score` succeeds, the returned score is
non-negative, and it is the maximum value of the 28×28 map before
upsampling (attained at some cell and bounding every cell). -/
def ScoreBoundsOK (patches bank : List (List ℚ)) : Prop :=
  ∃ s m u, score patches bank = Except.ok (s, m, u) ∧ 0 ≤ s ∧
    (∀ r, r < 28 → ∀ c, c < 28 → m r c ≤ s) ∧
    (∃ r, r < 28 ∧ ∃ c, c < 28 ∧ m r c = s)

/-- Conclusion of the amended claim C3: the bank has exactly
`⌊pooled_count / 10⌋` vectors, every bank vector is an exact member of the
pooled set, and the bank is empty exactly when fewer than 10 vectors were
pooled. -/
def BuildOK (pooled : List (List ℚ)) (sel : List ℕ) : Prop :=
  (build pooled sel).length = pooled.length / 10 ∧
  (∀ v ∈ build pooled sel, v ∈ pooled) ∧
  ((build pooled sel).length = 0 ↔ pooled.length < 10)

/-- Conclusion of the amended claim C4: the calibrator returns the candidate
threshold from `roc_curve`'s list whose F1 (for the rule `score ≥ threshold`)
is maximal, and among maximal candidates the first in that list's
(descending) order. -/
def MetricChoiceOK (ys : List ℚ) (ts : List Bool) : Prop :=
  ∃ t, calibrate_by_metric ys ts = Except.ok t ∧
    ∃ j, j < (rocThresholds ys ts).length ∧ (rocThresholds ys ts).getD j 0 = t ∧
      (∀ i, i < (rocThresholds ys ts).length →
        f1q ts (ys.map (fun sc => decide ((rocThresholds ys ts).getD i 0 ≤ sc))) ≤
          f1q ts (ys.map (fun sc => decide (t ≤ sc)))) ∧
      (∀ i, i < j →
        f1q ts (ys.map (fun sc => decide ((rocThresholds ys ts).getD i 0 ≤ sc))) <
          f1q ts (ys.map (fun sc => decide (t ≤ sc))))

/-- Conclusion of claim C10: the patch grid has 784 = 28·28 vectors of
dimension 1536, with the earlier layer's 512 channels first and the later
layer's 1024 channels last; `view(1, 1, 28, 28)` of any per-patch sequence is
well-defined exactly when it has 784 entries, in particular for the nearest
distance sequence of this grid. -/
def GridLayoutOK (f1 f2 : ActMap) : Prop :=
  (extract f1 f2).length = 28 * 28 ∧
  (∀ v ∈ extract f1 f2, v.length = 1536) ∧
  (∀ p, p < 28 * 28 → ∀ k, k < 1536 →
    ((extract f1 f2).getD p []).getD k 0 =
      if k < 512 then (adaptiveAvgPool 28 (avgPool3 f1)).data k (p / 28) (p % 28)
      else (adaptiveAvgPool 28 (avgPool3 f2)).data (k - 512) (p / 28) (p % 28)) ∧
  (∀ bank : List (List ℚ), (view28 (nndList (extract f1 f2) bank)).isSome) ∧
  (∀ l : List ℝ, (view28 l).isSome ↔ l.length = 28 * 28)

theorem le_foldl_max (xs : List ℝ) (a : ℝ) : a ≤ xs.foldl max a := by
  induction xs generalizing a with
  | nil => simp
  | cons x xs ih => exact le_trans (le_max_left a x) (ih (max a x))

theorem mem_le_foldl_max (xs : List ℝ) (a x : ℝ) (hx : x ∈ xs) : x ≤ xs.foldl max a := by
  induction xs generalizing a with
  | nil => cases hx
  | cons y ys ih =>
    rcases List.mem_cons.mp hx with h | h
    · subst h; exact le_trans (le_max_right a x) (le_foldl_max ys (max a x))
    · exact ih (max a y) h

theorem foldl_max_mem (xs : List ℝ) (a : ℝ) : xs.foldl max a = a ∨ xs.foldl max a ∈ xs := by
  induction xs generalizing a with
  | nil => left; rfl
  | cons y ys ih =>
    rcases ih (max a y) with h | h
    · rcases max_choice a y with hm | hm
      · left; rw [List.foldl_cons, h, hm]
      · right; rw [List.foldl_cons, h, hm]; exact List.mem_cons_self y ys
    · right; exact List.mem_cons_of_mem y h

theorem foldl_min_le (xs : List ℝ) (a : ℝ) : xs.foldl min a ≤ a := by
  induction xs generalizing a with
  | nil => simp
  | cons x xs ih => exact le_trans (ih (min a x)) (min_le_left a x)

theorem foldl_min_le_mem (xs : List ℝ) (a x : ℝ) (hx : x ∈ xs) : xs.foldl min a ≤ x := by
  induction xs generalizing a with
  | nil => cases hx
  | cons y ys ih =>
    rcases List.mem_cons.mp hx with h | h
    · subst h; exact le_trans (foldl_min_le ys (min a x)) (min_le_right a x)
    · exact ih (min a y) h

theorem foldl_min_mem (xs : List ℝ) (a : ℝ) : xs.foldl min a = a ∨ xs.foldl min a ∈ xs := by
  induction xs generalizing a with
  | nil => left; rfl
  | cons y ys ih =>
    rcases ih (min a y) with h | h
    · rcases min_choice a y with hm | hm
      · left; rw [List.foldl_cons, h, hm]
      · right; rw [List.foldl_cons, h, hm]; exact List.mem_cons_self y ys
    · right; exact List.mem_cons_of_mem y h

theorem listMinR_le (l : List ℝ) (x : ℝ) (hx : x ∈ l) : listMinR l ≤ x := by
  cases l with
  | nil => cases hx
  | cons y ys =>
    rcases List.mem_cons.mp hx with h | h
    · subst h; exact foldl_min_le ys x
    · exact foldl_min_le_mem ys y x h

theorem listMinR_mem (l : List ℝ) (h : l ≠ []) : listMinR l ∈ l := by
  cases l with
  | nil => exact absurd rfl h
  | cons y ys =>
    rcases foldl_min_mem ys y with h1 | h1
    · rw [listMinR, h1]; exact List.mem_cons_self y ys
    · exact List.mem_cons_of_mem y (by rw [listMinR]; exact h1)

theorem le_listMaxR (l : List ℝ) (x : ℝ) (hx : x ∈ l) : x ≤ listMaxR l := by
  cases l with
  | nil => cases hx
  | cons y ys =>
    rcases List.mem_cons.mp hx with h | h
    · subst h; exact le_foldl_max ys x
    · exact mem_le_foldl_max ys y x h

theorem listMaxR_mem (l : List ℝ) (h : l ≠ []) : listMaxR l ∈ l := by
  cases l with
  | nil => exact absurd rfl h
  | cons y ys =>
    rcases foldl_max_mem ys y with h1 | h1
    · rw [listMaxR, h1]; exact List.mem_cons_self y ys
    · exact List.mem_cons_of_mem y (by rw [listMaxR]; exact h1)

theorem getD_map_at {α β : Type} (f : α → β) (l : List α) (i : ℕ) (da : α) (db : β)
    (h : i < l.length) : (l.map f).getD i db = f (l.getD i da) := by
  rw [List.getD_eq_getElem l da h, List.getD_eq_getElem (l.map f) db (by simpa using h)]
  simp

theorem getD_range_map {β : Type} (f : ℕ → β) (n i : ℕ) (db : β) (h : i < n) :
    ((List.range n).map f).getD i db = f i := by
  rw [getD_map_at f (List.range n) i 0 db (by simpa using h)]
  rw [List.getD_eq_getElem (List.range n) 0 (by simpa using h)]
  simp

/-- C2 counterexample: for the activation shapes a 224×224 input produces
(earlier layer: 512×28×28, later/coarser layer: 1024×14×14), the extracted
grid has 784 = 28·28 cells — the EARLIER layer's resolution — and not
196 = 14·14, the coarser later-stage layer's resolution, contradicting the
claim that the grid size equals the coarser layer's resolution. -/
theorem extract_c2_counterexample :
    (extract ⟨512, 28, 28, fun _ _ _ => 0⟩ ⟨1024, 14, 14, fun _ _ _ => 0⟩).length = 784 ∧
      (784 : ℕ) ≠ 14 * 14 := by
  constructor
  · simp [extract]
  · decide

/-- C2 (amended): in `extract` both smoothed maps are adaptively
average-pooled to the raw spatial resolution of the FIRST-captured
(earlier-stage, finer) map — `fmap_size = features[0].shape[-2]` — so the
patch grid has `f1.H × f1.H` cells, the earlier layer's resolution, not the
coarser later layer's. -/
theorem extract_c2_amended : ∀ f1 f2 : ActMap,
    (extract f1 f2).length = f1.H * f1.H ∧
      (adaptiveAvgPool f1.H (avgPool3 f1)).H = f1.H ∧
      (adaptiveAvgPool f1.H (avgPool3 f2)).H = f1.H := by
  intro f1 f2
  refine ⟨?_, rfl, rfl⟩
  simp [extract]

/-- C5 counterexample: `AvgPool2d(3, stride=1)` (no padding) applied to a
28×28 map yields a 26×26 map, so the smoothing step DOES change the spatial
resolution, contradicting the claim. -/
theorem avgPool3_c5_counterexample :
    (avgPool3 ⟨512, 28, 28, fun _ _ _ => 0⟩).H = 26 ∧ (26 : ℕ) ≠ 28 :=
  ⟨rfl, by decide⟩

/-- C5 (amended): the 3×3 stride-1 unpadded average-pool smoothing reduces
each spatial dimension by 2, and the subsequent adaptive resampling sets the
resolution to its target size regardless, so the final grid resolution is
unaffected by the smoothing's reduction. -/
theorem avgPool3_c5_amended : ∀ (m : ActMap) (s : ℕ),
    (avgPool3 m).H = m.H - 2 ∧ (avgPool3 m).W = m.W - 2 ∧
      (adaptiveAvgPool s (avgPool3 m)).H = s ∧ (adaptiveAvgPool s (avgPool3 m)).W = s :=
  fun _ _ => ⟨rfl, rfl, rfl, rfl⟩

/-- C7: scoring against an empty memory bank fails (the `torch.min` reduction
over the zero-length bank dimension raises), produces no score or map, and in
particular is never an `ok` result, so it cannot be confused with a genuine
zero anomaly score. -/
theorem score_c7 : ∀ patches : List (List ℚ),
    score patches [] = Except.error ScoreError.emptyBank ∧
      ∀ out, score patches [] ≠ Except.ok out := by
  intro patches
  have h0 : score patches [] = Except.error ScoreError.emptyBank := rfl
  exact ⟨h0, fun out h => by rw [h0] at h; cases h⟩

/-- C8: the metric-optimal calibration fails before producing any threshold
whenever the labels hold a single class (`roc_auc_score` raises on
single-class input at the top of the cell). -/
theorem calibrate_by_metric_c8 (ys : List ℚ) (ts : List Bool)
    (h : (∀ b ∈ ts, b = true) ∨ (∀ b ∈ ts, b = false)) :
    calibrate_by_metric ys ts = Except.error CalibError.insufficientData := by
  unfold calibrate_by_metric
  rw [if_pos h]

/-- C8 witness at an all-anomalous label vector. -/
theorem calibrate_by_metric_c8_witness :
    ((∀ b ∈ ([true, true] : List Bool), b = true) ∨
        (∀ b ∈ ([true, true] : List Bool), b = false)) ∧
      calibrate_by_metric [1, 2] [true, true] = Except.error CalibError.insufficientData :=
  ⟨by decide, calibrate_by_metric_c8 [1, 2] [true, true] (by decide)⟩

/-- C9: the statistical calibration returns `mean + k · population-stdev` and
is monotonically non-decreasing in the sensitivity constant `k`. -/
theorem calibrate_statistical_c9 (scores : List ℚ) (h : scores ≠ []) :
    (∀ k : ℚ, calibrate_statistical scores k =
      ((npMean scores : ℚ) : ℝ) + ((k : ℚ) : ℝ) * Real.sqrt ((npVar scores : ℚ) : ℝ)) ∧
      (∀ k1 k2 : ℚ, k1 ≤ k2 →
        calibrate_statistical scores k1 ≤ calibrate_statistical scores k2) := by
  constructor
  · intro k; rfl
  · intro k1 k2 hk
    unfold calibrate_statistical
    have hs : (0 : ℝ) ≤ npStd scores := Real.sqrt_nonneg _
    have hkk : ((k1 : ℚ) : ℝ) ≤ ((k2 : ℚ) : ℝ) := by exact_mod_cast hk
    exact add_le_add_left (mul_le_mul_of_nonneg_right hkk hs) _

/-- C9 witness on the score set `[0, 2]` with `k` going from 1 to 3. -/
theorem calibrate_statistical_c9_witness :
    ([0, 2] : List ℚ) ≠ [] ∧ (1 : ℚ) ≤ 3 ∧
      calibrate_statistical [0, 2] 1 ≤ calibrate_statistical [0, 2] 3 :=
  ⟨by decide, by decide, (calibrate_statistical_c9 [0, 2] (by decide)).2 1 3 (by decide)⟩

/-- C3 counterexample: with 19 pooled vectors and the code's draw of
`19 // 10 = 1` index, the bank has 1 vector, while the claimed size
`round(0.1 × 19) = round(1.9) = 2`. -/
theorem build_c3_counterexample :
    (build (List.replicate 19 ([0] : List ℚ)) [0]).length = 1 ∧
      round (((1 : ℚ) / 10) * 19) = 2 ∧ (1 : ℕ) ≠ 2 := by
  refine ⟨by simp [build], ?_, by decide⟩
  rw [round_eq, Int.floor_eq_iff]
  constructor <;> norm_num

/-- C3 (amended): for any draw with the length `np.random.choice` was asked
for (`pooled_count / 10`, floor division — the sampling fraction is fixed at
10%) and in-range indices, the bank has exactly `pooled_count / 10` vectors,
each an exact member of the pooled set, and the bank is empty exactly when
fewer than 10 vectors were pooled (even though the fraction is nonzero). -/
theorem build_c3_amended (pooled : List (List ℚ)) (sel : List ℕ)
    (hlen : sel.length = pooled.length / 10)
    (hmem : ∀ i ∈ sel, i < pooled.length) : BuildOK pooled sel := by
  refine ⟨by simp [build, hlen], ?_, ?_⟩
  · intro v hv
    simp only [build, List.mem_map] at hv
    obtain ⟨i, hi, rfl⟩ := hv
    rw [List.getD_eq_getElem pooled [] (hmem i hi)]
    exact List.getElem_mem _
  · have hl : (build pooled sel).length = pooled.length / 10 := by simp [build, hlen]
    rw [hl]
    omega

/-- C3 witness: 12 pooled vectors, the draw `[3]` of size `12 / 10 = 1`. -/
theorem build_c3_witness :
    ([3] : List ℕ).length = (List.replicate 12 ([0] : List ℚ)).length / 10 ∧
      (∀ i ∈ ([3] : List ℕ), i < (List.replicate 12 ([0] : List ℚ)).length) ∧
      BuildOK (List.replicate 12 ([0] : List ℚ)) [3] :=
  ⟨by decide, by decide, build_c3_amended _ _ (by decide) (by decide)⟩

theorem argmaxIdx_lt_length : ∀ l : List ℚ, l ≠ [] → argmaxIdx l < l.length
  | [], h => absurd rfl h
  | [_], _ => by simp [argmaxIdx]
  | x :: y :: r, _ => by
    have ih : argmaxIdx (y :: r) < r.length + 1 := by
      simpa using argmaxIdx_lt_length (y :: r) (by simp)
    by_cases hc : x < (y :: r).getD (argmaxIdx (y :: r)) 0
    · simp only [argmaxIdx, if_pos hc, List.length_cons]
      omega
    · simp only [argmaxIdx, if_neg hc, List.length_cons]
      omega

theorem argmaxIdx_le : ∀ l : List ℚ, ∀ i, i < l.length →
    l.getD i 0 ≤ l.getD (argmaxIdx l) 0
  | [], i, hi => by simp at hi
  | [z], i, hi => by
    have hi0 : i = 0 := by
      simp only [List.length_cons, List.length_nil] at hi
      omega
    subst hi0
    simp [argmaxIdx]
  | x :: y :: r, i, hi => by
    have ih := fun i hi => argmaxIdx_le (y :: r) i hi
    by_cases hc : x < (y :: r).getD (argmaxIdx (y :: r)) 0
    · simp only [argmaxIdx, if_pos hc]
      cases i with
      | zero => exact le_of_lt (by simpa using hc)
      | succ i =>
        rw [List.getD_cons_succ, List.getD_cons_succ]
        exact ih i (by simpa using hi)
    · simp only [argmaxIdx, if_neg hc]
      push_neg at hc
      cases i with
      | zero => simp
      | succ i =>
        rw [List.getD_cons_succ, List.getD_cons_zero]
        exact le_trans (ih i (by simpa using hi)) hc

theorem argmaxIdx_earlier_lt : ∀ l : List ℚ, ∀ i, i < argmaxIdx l →
    l.getD i 0 < l.getD (argmaxIdx l) 0
  | [], i, hi => by simp [argmaxIdx] at hi
  | [_], i, hi => by simp [argmaxIdx] at hi
  | x :: y :: r, i, hi => by
    have ih := fun i hi => argmaxIdx_earlier_lt (y :: r) i hi
    by_cases hc : x < (y :: r).getD (argmaxIdx (y :: r)) 0
    · simp only [argmaxIdx, if_pos hc] at hi ⊢
      cases i with
      | zero => simpa using hc
      | succ i =>
        rw [List.getD_cons_succ, List.getD_cons_succ]
        exact ih i (by omega)
    · simp only [argmaxIdx, if_neg hc] at hi
      omega

attribute [local semireducible] Rat.add Rat.mul Rat.sub Rat.inv in
/-- C4 counterexample: on scores `[4, 1, 3, 2]` with labels
`[1, 1, 0, 0]`, thresholds 1 and 4 tie at the maximal F1 of 2/3; the code
(`thresholds[np.argmax(f1_scores)]` over `roc_curve`'s descending threshold
list) returns 4, while the claimed rule (first maximal candidate in ascending
order of unique observed scores) returns 1. -/
theorem calibrate_by_metric_c4_counterexample :
    calibrate_by_metric [4, 1, 3, 2] [true, true, false, false] = Except.ok 4 ∧
      claimCalibrateByMetric [4, 1, 3, 2] [true, true, false, false] = 1 ∧
      (4 : ℚ) ≠ 1 := by
  refine ⟨by rfl, by decide, by decide⟩

/-- C4 (amended): whenever both classes are present, the metric-optimal
calibration returns a candidate from `roc_curve`'s threshold list (a sentinel
above every score followed by the distinct observed scores in DESCENDING
order, with ROC-collinear interior points dropped); its F1 under the rule
`score ≥ threshold` is maximal over all candidates, and ties among
maximal-F1 candidates are broken by taking the first encountered in that
descending candidate order (so the largest tied threshold), not in ascending
order of unique scores. -/
theorem calibrate_by_metric_c4_amended (ys : List ℚ) (ts : List Bool)
    (h1 : ∃ b ∈ ts, b = true) (h0 : ∃ b ∈ ts, b = false) :
    MetricChoiceOK ys ts := by
  obtain ⟨b1, hb1, hb1t⟩ := h1
  obtain ⟨b0, hb0, hb0f⟩ := h0
  have hguard : ¬((∀ b ∈ ts, b = true) ∨ (∀ b ∈ ts, b = false)) := by
    rintro (hall | hall)
    · exact absurd (hall b0 hb0) (by rw [hb0f]; decide)
    · exact absurd (hall b1 hb1) (by rw [hb1t]; decide)
  have hthr : ∃ hd tl, rocThresholds ys ts = hd :: tl := ⟨_, _, rfl⟩
  obtain ⟨hd, tl, hcons⟩ := hthr
  set thr := rocThresholds ys ts with hthrdef
  set f1v : ℚ → ℚ := fun t => f1q ts (ys.map (fun sc => decide (t ≤ sc))) with hf1v
  set f1s := thr.map f1v with hf1s
  have hne : f1s ≠ [] := by rw [hf1s, hcons]; simp
  have hlen : f1s.length = thr.length := by rw [hf1s]; simp
  have hj : argmaxIdx f1s < thr.length := hlen ▸ argmaxIdx_lt_length f1s hne
  have hgd : ∀ i, i < thr.length → f1s.getD i 0 = f1v (thr.getD i 0) := by
    intro i hi
    exact getD_map_at f1v thr i 0 0 hi
  have hcal : calibrate_by_metric ys ts = Except.ok (thr.getD (argmaxIdx f1s) 0) := by
    unfold calibrate_by_metric
    rw [if_neg hguard]
  refine ⟨thr.getD (argmaxIdx f1s) 0, hcal, argmaxIdx f1s, hj, rfl, ?_, ?_⟩
  · intro i hi
    have := argmaxIdx_le f1s i (hlen ▸ hi)
    rwa [hgd i hi, hgd (argmaxIdx f1s) hj] at this
  · intro i hij
    have := argmaxIdx_earlier_lt f1s i hij
    rwa [hgd i (lt_trans hij hj), hgd (argmaxIdx f1s) hj] at this

/-- C4 witness at scores `[1, 2]`, labels `[0, 1]`. -/
theorem calibrate_by_metric_c4_witness :
    (∃ b ∈ ([false, true] : List Bool), b = true) ∧
      (∃ b ∈ ([false, true] : List Bool), b = false) ∧
      MetricChoiceOK [1, 2] [false, true] :=
  ⟨by decide, by decide,
    calibrate_by_metric_c4_amended [1, 2] [false, true] (by decide) (by decide)⟩

theorem nndList_length (patches bank : List (List ℚ)) :
    (nndList patches bank).length = patches.length := by
  simp [nndList]

theorem nndList_getD_eq (patches bank : List (List ℚ)) (i : ℕ) (hi : i < patches.length) :
    (nndList patches bank).getD i 0 =
      listMinR (bank.map (fun b => l2 (patches.getD i []) b)) := by
  unfold nndList
  exact getD_map_at (fun p => listMinR (bank.map (fun b => l2 p b))) patches i [] 0 hi

theorem nndList_nonneg (patches bank : List (List ℚ)) (hb : bank ≠ []) :
    ∀ x ∈ nndList patches bank, 0 ≤ x := by
  intro x hx
  simp only [nndList, List.mem_map] at hx
  obtain ⟨p, _, rfl⟩ := hx
  have hmem := listMinR_mem (bank.map (fun b => l2 p b)) (by simpa using hb)
  obtain ⟨b, _, heq⟩ := List.mem_map.mp hmem
  rw [← heq]
  exact Real.sqrt_nonneg _

theorem score_eq (patches bank : List (List ℚ)) (hb : bank ≠ []) (hp : patches.length = 784) :
    score patches bank = Except.ok (listMaxR (nndList patches bank),
      fun r c => (nndList patches bank).getD (r * 28 + c) 0,
      bilinearUp 28 224 (fun r c => (nndList patches bank).getD (r * 28 + c) 0)) := by
  have hbe : bank.isEmpty = false := by
    cases bank with
    | nil => exact absurd rfl hb
    | cons b bs => rfl
  have hv : view28 (nndList patches bank) =
      some (fun r c => (nndList patches bank).getD (r * 28 + c) 0) := by
    unfold view28
    rw [if_pos (by rw [nndList_length, hp])]
  unfold score
  rw [hbe, hv]
  rfl

/-- C1: for a non-empty bank and a 784-patch grid, `score` succeeds; the
returned scalar bounds every per-patch nearest distance and is attained by
one; every per-patch value is the minimum (lower bound and attained) of the
Euclidean distances from that patch vector to the bank vectors; the 28×28 map
is the row-major reshape of the per-patch sequence, and the dense map is its
bilinear upsampling to 224×224. -/
theorem score_c1 (patches bank : List (List ℚ)) (hb : bank ≠ [])
    (hp : patches.length = 784) : ScoreSpecOK patches bank := by
  refine ⟨listMaxR (nndList patches bank),
    fun r c => (nndList patches bank).getD (r * 28 + c) 0,
    bilinearUp 28 224 (fun r c => (nndList patches bank).getD (r * 28 + c) 0),
    score_eq patches bank hb hp, ?_, ?_, ?_, fun r _ c _ => rfl, rfl⟩
  · intro i hi
    have hi2 : i < patches.length := by omega
    rw [nndList_getD_eq patches bank i hi2]
    constructor
    · intro b hbmem
      exact listMinR_le _ _ (List.mem_map_of_mem _ hbmem)
    · have hmem := listMinR_mem (bank.map (fun b => l2 (patches.getD i []) b))
        (by simpa using hb)
      obtain ⟨b, hbmem, heq⟩ := List.mem_map.mp hmem
      exact ⟨b, hbmem, heq.symm⟩
  · intro i hi
    have hi2 : i < (nndList patches bank).length := by rw [nndList_length, hp]; exact hi
    refine le_listMaxR _ _ ?_
    rw [List.getD_eq_getElem _ _ hi2]
    exact List.getElem_mem hi2
  · have hne : nndList patches bank ≠ [] := by
      have h7 : (nndList patches bank).length = 784 := by rw [nndList_length, hp]
      intro hnil
      rw [hnil] at h7
      simp at h7
    obtain ⟨i, hilt, heq⟩ := List.mem_iff_getElem.mp (listMaxR_mem _ hne)
    refine ⟨i, ?_, ?_⟩
    · have h7 := hilt
      rw [nndList_length, hp] at h7
      exact h7
    · rw [List.getD_eq_getElem _ _ hilt]
      exact heq

/-- C1 witness at a grid of 784 zero patches and the bank `[[0]]`. -/
theorem score_c1_witness :
    ([[0]] : List (List ℚ)) ≠ [] ∧ (List.replicate 784 ([0] : List ℚ)).length = 784 ∧
      ScoreSpecOK (List.replicate 784 ([0] : List ℚ)) [[0]] :=
  ⟨by decide, by rw [List.length_replicate], score_c1 _ _ (by decide) (by rw [List.length_replicate])⟩

/-- C6: for a non-empty bank and a 784-patch grid, the anomaly score is
non-negative and equals the maximum value of the 28×28 anomaly map before
upsampling (it bounds every cell and is attained at one). -/
theorem score_c6 (patches bank : List (List ℚ)) (hb : bank ≠ [])
    (hp : patches.length = 784) : ScoreBoundsOK patches bank := by
  have hne : nndList patches bank ≠ [] := by
    have h7 : (nndList patches bank).length = 784 := by rw [nndList_length, hp]
    intro hnil
    rw [hnil] at h7
    simp at h7
  refine ⟨listMaxR (nndList patches bank),
    fun r c => (nndList patches bank).getD (r * 28 + c) 0,
    bilinearUp 28 224 (fun r c => (nndList patches bank).getD (r * 28 + c) 0),
    score_eq patches bank hb hp, ?_, ?_, ?_⟩
  · exact nndList_nonneg patches bank hb _ (listMaxR_mem _ hne)
  · intro r hr c hc
    have hlt : r * 28 + c < (nndList patches bank).length := by
      rw [nndList_length, hp]
      omega
    refine le_listMaxR _ _ ?_
    show (nndList patches bank).getD (r * 28 + c) 0 ∈ nndList patches bank
    rw [List.getD_eq_getElem _ _ hlt]
    exact List.getElem_mem hlt
  · obtain ⟨i, hilt, heq⟩ := List.mem_iff_getElem.mp (listMaxR_mem _ hne)
    have hi784 : i < 784 := by
      have h7 := hilt
      rw [nndList_length, hp] at h7
      exact h7
    refine ⟨i / 28, by omega, i % 28, by omega, ?_⟩
    show (nndList patches bank).getD (i / 28 * 28 + i % 28) 0 = listMaxR (nndList patches bank)
    have hsplit : i / 28 * 28 + i % 28 = i := by omega
    rw [hsplit, List.getD_eq_getElem _ _ hilt]
    exact heq

/-- C6 witness at a grid of 784 zero patches and the bank `[[0]]`. -/
theorem score_c6_witness :
    ([[0]] : List (List ℚ)) ≠ [] ∧ (List.replicate 784 ([0] : List ℚ)).length = 784 ∧
      ScoreBoundsOK (List.replicate 784 ([0] : List ℚ)) [[0]] :=
  ⟨by decide, by rw [List.length_replicate], score_c6 _ _ (by decide) (by rw [List.length_replicate])⟩

/-- C10: for the activation shapes the frozen ResNet50 backbone produces on a
224×224 3-channel input (earlier tap `layer2`: 512 channels at 28×28; later
tap `layer3`: 1024 channels at 14×14, captured in registration order), the
extracted grid has exactly 784 = 28·28 patch vectors of dimension 1536, the
first 512 components coming from the earlier layer's processed map and the
last 1024 from the later layer's; `view(1, 1, 28, 28)` succeeds exactly on
sequences of 784 entries, in particular on this grid's per-patch distance
sequence against any bank. -/
theorem extract_c10 (f1 f2 : ActMap) (h1C : f1.C = 512) (h1H : f1.H = 28)
    (h1W : f1.W = 28) (h2C : f2.C = 1024) (h2H : f2.H = 14) (h2W : f2.W = 14) :
    GridLayoutOK f1 f2 := by
  have hlen : (extract f1 f2).length = 28 * 28 := by
    simp [extract, h1H]
  refine ⟨hlen, ?_, ?_, ?_, ?_⟩
  · intro v hv
    simp only [extract, List.mem_map] at hv
    obtain ⟨p, _, rfl⟩ := hv
    simp only [List.length_map, List.length_range]
    show (catC (adaptiveAvgPool f1.H (avgPool3 f1)) (adaptiveAvgPool f1.H (avgPool3 f2))).C = 1536
    show f1.C + f2.C = 1536
    rw [h1C, h2C]
  · intro p hp k hk
    have hpH : p < f1.H * f1.H := by rw [h1H]; exact hp
    have h1 : (extract f1 f2).getD p [] =
        (List.range
          ((catC (adaptiveAvgPool f1.H (avgPool3 f1)) (adaptiveAvgPool f1.H (avgPool3 f2))).C)).map
          (fun c =>
            (catC (adaptiveAvgPool f1.H (avgPool3 f1)) (adaptiveAvgPool f1.H (avgPool3 f2))).data
              c (p / f1.H) (p % f1.H)) :=
      getD_range_map _ (f1.H * f1.H) p [] hpH
    rw [h1]
    have hkC : k <
        (catC (adaptiveAvgPool f1.H (avgPool3 f1)) (adaptiveAvgPool f1.H (avgPool3 f2))).C := by
      show k < f1.C + f2.C
      rw [h1C, h2C]
      omega
    rw [getD_range_map _ _ k 0 hkC]
    rw [h1H]
    show (if k < (adaptiveAvgPool 28 (avgPool3 f1)).C then
        (adaptiveAvgPool 28 (avgPool3 f1)).data k (p / 28) (p % 28)
      else
        (adaptiveAvgPool 28 (avgPool3 f2)).data (k - (adaptiveAvgPool 28 (avgPool3 f1)).C)
          (p / 28) (p % 28)) = _
    have hC : (adaptiveAvgPool 28 (avgPool3 f1)).C = 512 := by
      show f1.C = 512
      exact h1C
    rw [hC]
  · intro bank
    unfold view28
    rw [if_pos (by rw [nndList_length, hlen])]
    rfl
  · intro l
    unfold view28
    by_cases h : l.length = 28 * 28
    · rw [if_pos h]
      simp [h]
    · rw [if_neg h]
      simp [h]

/-- C10 witness at constant-zero activation maps of the ResNet50 shapes. -/
theorem extract_c10_witness :
    (ActMap.mk 512 28 28 (fun _ _ _ => 0)).C = 512 ∧
      (ActMap.mk 512 28 28 (fun _ _ _ => 0)).H = 28 ∧
      (ActMap.mk 512 28 28 (fun _ _ _ => 0)).W = 28 ∧
      (ActMap.mk 1024 14 14 (fun _ _ _ => 0)).C = 1024 ∧
      (ActMap.mk 1024 14 14 (fun _ _ _ => 0)).H = 14 ∧
      (ActMap.mk 1024 14 14 (fun _ _ _ => 0)).W = 14 ∧
      GridLayoutOK (ActMap.mk 512 28 28 (fun _ _ _ => 0))
        (ActMap.mk 1024 14 14 (fun _ _ _ => 0)) :=
  ⟨rfl, rfl, rfl, rfl, rfl, rfl, extract_c10 _ _ rfl rfl rfl rfl rfl rfl⟩
